import Mathlib

/-!
# Verification of the schelectron schematic core

A shallow embedding of the schelectron schematic editor's core data model and
operations, with proofs of the specified properties: the SVG codec round-trip,
the change/undo engine's laws, dot inference, the orientation group, grid
snapping, custom-element caching, and pending-port kind changes.

Editor-side operations (`SchEditor.applyChange`, `undo`, `redo`, `logChange`,
`handleLoadFile`, the mode handlers' `commit` and `changePortKind`, and
`createCustomElement`) are translated from the TypeScript sources in
`EditorCore` and `SchematicsCore`.  The `SchematicsCore` codec, `ChangeLog`,
`orientation` and `grid` modules are not present in the source tree (only their
declarations and call sites are); those definitions are modelled from the
specification and marked as such in their doc comments.

Coordinates are rational (`ℚ`): the source operates on JavaScript numbers and
every property at issue (snapping, round-trips, coincidence counting) is exact
arithmetic on grid-aligned values, never rounding of binary floats.
-/

namespace Schelectron

/-! ## Geometry: points and grid snapping -/

/-- A 2D coordinate, per `SchematicsCore`'s `Point`: immutable pair (x, y). -/
structure Point where
  x : ℚ
  y : ℚ
deriving DecidableEq

/-- Modelled from the spec: `nearestOnGrid` (EditorCore `drawing/grid.ts`, absent
from the source tree) rounds both coordinates to the nearest multiple of the
10-unit grid spacing, with the deterministic half-up tie break of
`Math.round`. -/
def nearestOnGrid (p : Point) : Point :=
  { x := 10 * round (p.x / 10), y := 10 * round (p.y / 10) }

/-! ## The orientation group

Modelled from the spec and the readme's matrix table: 4 rotations composed
with an optional reflection, 8 states total, each a signed permutation
matrix. -/

/-- One of the four axis-aligned rotations. -/
inductive Rotation
  | r0
  | r90
  | r180
  | r270
deriving DecidableEq

/-- Modelled from the spec: an orientation is a rotation plus an optional
reflection, 8 states total (`SchematicsCore`'s `orientation` module is absent
from the source tree). -/
structure Orientation where
  reflected : Bool
  rotation : Rotation
deriving DecidableEq

/-- The flip axes, per `SchematicsCore`'s `Direction`. -/
inductive Direction
  | horiz
  | vert
deriving DecidableEq

/-- A 2x2 integer matrix recorded in SVG `matrix(a b c d e f)` column order:
the linear part has columns (a, b) and (c, d). -/
structure OMat where
  a : Int
  b : Int
  c : Int
  d : Int
deriving DecidableEq

/-- Product of two matrices in the (a b c d) column-major encoding. -/
def OMat.mul (m n : OMat) : OMat :=
  { a := m.a * n.a + m.c * n.b
    b := m.b * n.a + m.d * n.b
    c := m.a * n.c + m.c * n.d
    d := m.b * n.c + m.d * n.d }

/-- The readme's 8-entry orientation-to-matrix table. -/
def orientToMat (o : Orientation) : OMat :=
  match o.reflected, o.rotation with
  | false, .r0 => ⟨1, 0, 0, 1⟩
  | false, .r90 => ⟨0, 1, -1, 0⟩
  | false, .r180 => ⟨-1, 0, 0, -1⟩
  | false, .r270 => ⟨0, -1, 1, 0⟩
  | true, .r0 => ⟨1, 0, 0, -1⟩
  | true, .r90 => ⟨0, 1, 1, 0⟩
  | true, .r180 => ⟨-1, 0, 0, 1⟩
  | true, .r270 => ⟨0, -1, -1, 0⟩

/-- Inverse of the matrix table: decode a matrix to its orientation, `none` on
any matrix outside the 8-element group. -/
def matToOrient (m : OMat) : Option Orientation :=
  match m.a, m.b, m.c, m.d with
  | 1, 0, 0, 1 => some ⟨false, .r0⟩
  | 0, 1, -1, 0 => some ⟨false, .r90⟩
  | -1, 0, 0, -1 => some ⟨false, .r180⟩
  | 0, -1, 1, 0 => some ⟨false, .r270⟩
  | 1, 0, 0, -1 => some ⟨true, .r0⟩
  | 0, 1, 1, 0 => some ⟨true, .r90⟩
  | -1, 0, 0, 1 => some ⟨true, .r180⟩
  | 0, -1, -1, 0 => some ⟨true, .r270⟩
  | _, _, _, _ => none

/-- The fixed 90-degree rotation matrix the spec composes onto an orientation. -/
def rotMat : OMat := ⟨0, 1, -1, 0⟩

/-- The fixed reflection matrix for each flip axis. -/
def flipMat : Direction → OMat
  | .horiz => ⟨1, 0, 0, -1⟩
  | .vert => ⟨-1, 0, 0, 1⟩

/-- The next rotation, 90 degrees on. -/
def Rotation.next : Rotation → Rotation
  | .r0 => .r90
  | .r90 => .r180
  | .r180 => .r270
  | .r270 => .r0

/-- The opposite rotation. -/
def Rotation.neg : Rotation → Rotation
  | .r0 => .r0
  | .r90 => .r270
  | .r180 => .r180
  | .r270 => .r90

/-- Rotation advanced by 180 degrees. -/
def Rotation.plus180 : Rotation → Rotation
  | .r0 => .r180
  | .r90 => .r270
  | .r180 => .r0
  | .r270 => .r90

/-- Modelled from the spec: rotating an orientation composes the fixed
90-degree matrix onto it; on the 8-state encoding this advances the rotation
and keeps the reflection. -/
def Orientation.rotated (o : Orientation) : Orientation :=
  { o with rotation := o.rotation.next }

/-- Modelled from the spec: flipping composes the fixed reflection matrix onto
the orientation; on the 8-state encoding it toggles the reflection flag and
adjusts the rotation. -/
def Orientation.flipped (o : Orientation) : Direction → Orientation
  | .horiz => ⟨!o.reflected, o.rotation.neg⟩
  | .vert => ⟨!o.reflected, o.rotation.neg.plus180⟩

/-! ## The entity model and dot inference -/

/-- The data record of a `Wire`: an ordered point sequence. -/
structure WireData where
  points : List Point
deriving DecidableEq

/-- The data record of an `Instance`: name, of-string, element kind,
location, and orientation. -/
structure InstanceData where
  name : String
  ofString : String
  kind : String
  loc : Point
  orientation : Orientation
deriving DecidableEq

/-- The data record of a `SchPort`: name, port kind, location, and
orientation. -/
structure PortData where
  name : String
  kind : String
  loc : Point
  orientation : Orientation
deriving DecidableEq

/-- The two endpoints of a wire: its first and last points (empty for the
degenerate empty point list, which entity-add operations reject). -/
def endpointsOf (w : WireData) : List Point :=
  match w.points with
  | [] => []
  | p :: ps => [p, ps.getLastD p]

/-- The Manhattan segments of a wire: its consecutive point pairs. -/
def segmentsOf (w : WireData) : List (Point × Point) :=
  w.points.zip w.points.tail

/-- Whether `b` is strictly between `a` and `c` on a line. -/
def strictlyBetween (a b c : ℚ) : Bool :=
  (a < b && b < c) || (c < b && b < a)

/-- Whether point `p` lies strictly inside segment `s` (touching its interior,
not either endpoint), for an axis-aligned segment. -/
def onSegMid (p : Point) (s : Point × Point) : Bool :=
  (s.1.x == s.2.x && p.x == s.1.x && strictlyBetween s.1.y p.y s.2.y) ||
  (s.1.y == s.2.y && p.y == s.1.y && strictlyBetween s.1.x p.x s.2.x)

/-- Number of wire-endpoint incidences at `p` over the wire set. -/
def endCount (ws : List WireData) (p : Point) : Nat :=
  (ws.map (fun w => (endpointsOf w).countP (fun q => decide (q = p)))).sum

/-- Number of wires one of whose segment interiors passes through `p`. -/
def midCount (ws : List WireData) (p : Point) : Nat :=
  ws.countP (fun w => (segmentsOf w).any (fun s => onSegMid p s))

/-- Modelled from the spec: a dot is emitted at a location where at least 3
wire-end/segment coincidences tally, or exactly 2 when they form a T — one
wire's endpoint touching another's mid-segment. -/
def isDot (ws : List WireData) (p : Point) : Bool :=
  decide (3 ≤ endCount ws p + midCount ws p) ||
  (endCount ws p == 1 && midCount ws p == 1)

/-- Modelled from the spec: recompute the full dot set from scratch from the
current wire set (`Schematic.updateDots` dot inference, absent from the source
tree): every distinct wire endpoint that tallies as a junction. -/
def inferDots (ws : List WireData) : List Point :=
  ((ws.flatMap endpointsOf).dedup).filter (isDot ws)

/-! ## The Schematic aggregate -/

/-- An entity that can be added to or removed from a `Schematic`, carrying a
numeric identity standing for the TypeScript object identity. -/
inductive Entity
  | inst (id : Nat) (d : InstanceData)
  | port (id : Nat) (d : PortData)
  | wire (id : Nat) (d : WireData)
deriving DecidableEq

/-- A reference to a placeable entity (Instance or SchPort), the targets of
`Move` and `EditText` changes. -/
inductive PlaceableRef
  | inst (id : Nat)
  | port (id : Nat)
deriving DecidableEq

/-- Which of a placeable's labels an `EditText` change edits. -/
inductive LabelKind
  | name
  | ofLabel
deriving DecidableEq

/-- The schematic aggregate: size, prelude, and the id-keyed entity
collections, plus the derived dot list and the opaque other-SVG bucket. -/
structure Schematic where
  name : String
  prelude : String
  size : Point
  instances : List (Nat × InstanceData)
  ports : List (Nat × PortData)
  wires : List (Nat × WireData)
  dots : List Point
  otherSvgElements : List String
deriving DecidableEq

/-- Recompute the schematic's dots from scratch from its current wires, per
`Schematic.updateDots`. -/
def Schematic.updateDots (s : Schematic) : Schematic :=
  { s with dots := inferDots (s.wires.map Prod.snd) }

/-- Append an entity to its collection, per `Schematic.addEntity`. -/
def Schematic.addEntity (s : Schematic) : Entity → Schematic
  | .inst i d => { s with instances := s.instances ++ [(i, d)] }
  | .port i d => { s with ports := s.ports ++ [(i, d)] }
  | .wire i d => { s with wires := s.wires ++ [(i, d)] }

/-- Remove an entity from its collection by identity, per
`Schematic.removeEntity`. -/
def Schematic.removeEntity (s : Schematic) : Entity → Schematic
  | .inst i _ => { s with instances := s.instances.filter (fun x => x.1 != i) }
  | .port i _ => { s with ports := s.ports.filter (fun x => x.1 != i) }
  | .wire i _ => { s with wires := s.wires.filter (fun x => x.1 != i) }

/-- A location/orientation pair, the `Place` of a placeable entity. -/
structure Place where
  loc : Point
  orientation : Orientation
deriving DecidableEq

/-- Set a placeable's location and orientation, as `applyChange`'s `Move` arm
does with `entity.data.loc = to.loc; entity.data.orientation = to.orientation`. -/
def Schematic.setPlace (s : Schematic) : PlaceableRef → Place → Schematic
  | .inst i, pl =>
    { s with instances := s.instances.map (fun x =>
        if x.1 = i then (x.1, { x.2 with loc := pl.loc, orientation := pl.orientation }) else x) }
  | .port i, pl =>
    { s with ports := s.ports.map (fun x =>
        if x.1 = i then (x.1, { x.2 with loc := pl.loc, orientation := pl.orientation }) else x) }

/-- Set a label's text, as `applyChange`'s `EditText` arm does with
`change.label.update(change.to)`: the name and of labels mirror the owning
entity's name and of-string fields. -/
def Schematic.setLabel (s : Schematic) : PlaceableRef → LabelKind → String → Schematic
  | .inst i, .name, t =>
    { s with instances := s.instances.map (fun x =>
        if x.1 = i then (x.1, { x.2 with name := t }) else x) }
  | .inst i, .ofLabel, t =>
    { s with instances := s.instances.map (fun x =>
        if x.1 = i then (x.1, { x.2 with ofString := t }) else x) }
  | .port i, .name, t =>
    { s with ports := s.ports.map (fun x =>
        if x.1 = i then (x.1, { x.2 with name := t }) else x) }
  | .port _, .ofLabel, _ => s

/-- Set a wire's points wholesale, as `applyChange`'s `MoveWire` arm does with
`change.wire.points = change.to`. -/
def Schematic.setWirePoints (s : Schematic) (i : Nat) (ps : List Point) : Schematic :=
  { s with wires := s.wires.map (fun x => if x.1 = i then (x.1, ⟨ps⟩) else x) }

/-! ## Changes and the ChangeLog -/

/-- A reversible edit, per `EditorCore`'s `Change` union. -/
inductive Change
  | add (e : Entity)
  | remove (e : Entity)
  | move (target : PlaceableRef) (src dst : Place)
  | editText (target : PlaceableRef) (label : LabelKind) (src dst : String)
  | moveWire (id : Nat) (src dst : List Point)
  | batch (changes : List Change)

mutual

/-- Modelled from the spec: the synthesized inverse of a change — Add inverts
to Remove, Move to Move with from/to swapped, Batch to a Batch of inverted
sub-changes in reverse order. -/
def Change.invert : Change → Change
  | .add e => .remove e
  | .remove e => .add e
  | .move t f d => .move t d f
  | .editText t l f d => .editText t l d f
  | .moveWire i f d => .moveWire i d f
  | .batch cs => .batch (Change.invertList cs)

/-- The inverted sub-changes of a batch, in strictly reversed order. -/
def Change.invertList : List Change → List Change
  | [] => []
  | c :: cs => Change.invertList cs ++ [c.invert]

end

/-- Modelled from the spec: the change log — an ordered history with a movable
cursor separating done from undone entries (`EditorCore`'s `ChangeLog`, absent
from the source tree). -/
structure ChangeLog where
  entries : List Change
  cursor : Nat

/-- Modelled from the spec: `add` appends the change at the cursor, discarding
any undone tail, then advances the cursor past it; it does not itself apply
the change. -/
def ChangeLog.add (log : ChangeLog) (c : Change) : ChangeLog :=
  { entries := log.entries.take log.cursor ++ [c], cursor := log.cursor + 1 }

/-- Modelled from the spec: `undo` is a no-op at history start; otherwise it
steps the cursor back and returns that entry's inverse for the caller to
apply. -/
def ChangeLog.undo (log : ChangeLog) : Option Change × ChangeLog :=
  if log.cursor = 0 then (none, log)
  else
    match log.entries[log.cursor - 1]? with
    | none => (none, log)
    | some c => (some c.invert, { log with cursor := log.cursor - 1 })

/-- Modelled from the spec: `redo` is a no-op at history end; otherwise it
returns the entry at the cursor in its forward form and advances the cursor. -/
def ChangeLog.redo (log : ChangeLog) : Option Change × ChangeLog :=
  match log.entries[log.cursor]? with
  | none => (none, log)
  | some c => (some c, { log with cursor := log.cursor + 1 })

/-! ## The editor -/

/-- A message the editor sends to its platform. -/
inductive PlatformMsg
  | change
  | saveFile
  | rendererUp

/-- The editor's state, as far as the change engine and load path see it:
the schematic, the change log, the messages sent to the platform so far, and
the diagnostics handed to the failure handler. -/
structure EditorState where
  schematic : Schematic
  changeLog : ChangeLog
  sentMessages : List PlatformMsg
  failures : List String

mutual

/-- Apply a change to the schematic, per `SchEditor.applyChange`: structural
arms mutate their entity then recompute dots from scratch; `EditText` only
updates the label; `Batch` applies its sub-changes in the order listed. -/
def SchEditor.applyChange (s : Schematic) : Change → Schematic
  | .add e => (s.addEntity e).updateDots
  | .remove e => (s.removeEntity e).updateDots
  | .move t _ dst => (s.setPlace t dst).updateDots
  | .editText t l _ dst => s.setLabel t l dst
  | .moveWire i _ dst => (s.setWirePoints i dst).updateDots
  | .batch cs => SchEditor.applyChangeList s cs

/-- Apply a batch's sub-changes left to right, per `applyChange`'s
`for (const subChange of change.changes)` loop. -/
def SchEditor.applyChangeList (s : Schematic) : List Change → Schematic
  | [] => s
  | c :: cs => SchEditor.applyChangeList (SchEditor.applyChange s c) cs

end

/-- Record a change in the history and notify the platform, per
`SchEditor.logChange`; the schematic is not touched. -/
def SchEditor.logChange (ed : EditorState) (c : Change) : EditorState :=
  { ed with
    changeLog := ed.changeLog.add c
    sentMessages := ed.sentMessages ++ [.change] }

/-- Undo the last change if there is one, per `SchEditor.undo`: ask the log
for the inverse and apply it. -/
def SchEditor.undo (ed : EditorState) : EditorState :=
  match ed.changeLog.undo with
  | (none, log) => { ed with changeLog := log }
  | (some c, log) =>
    { ed with changeLog := log, schematic := SchEditor.applyChange ed.schematic c }

/-- Redo the last undone change if there is one, per `SchEditor.redo`. -/
def SchEditor.redo (ed : EditorState) : EditorState :=
  match ed.changeLog.redo with
  | (none, log) => { ed with changeLog := log }
  | (some c, log) =>
    { ed with changeLog := log, schematic := SchEditor.applyChange ed.schematic c }

/-- Commit an interactively placed pending entity, per `InstanceReady.commit`
and `PortReady.commit`: update dots, add the entity, then log the `Add`
change. -/
def ModeHandlers.commit (ed : EditorState) (e : Entity) : EditorState :=
  SchEditor.logChange
    { ed with schematic := (ed.schematic.updateDots).addEntity e }
    (.add e)

/-! ## The SVG codec

Modelled from the spec's wire-format contract: the document is embedded at the
element/attribute level (groups, matrices, path command lists), since the
spec's only bit-exact pieces are the schema's structure and the 8-entry matrix
table; the byte-level XML text is a cosmetic layer the spec excludes from
equivalence. -/

/-- An entry of a path's `d` attribute: a move or a line command. -/
inductive PathCmd
  | move (p : Point)
  | line (p : Point)
deriving DecidableEq

/-- The full `matrix(a b c d e f)` transform: linear part plus translation. -/
structure SvgMatrix where
  a : Int
  b : Int
  c : Int
  d : Int
  e : ℚ
  f : ℚ
deriving DecidableEq

/-- A top-level node of a schematic SVG document. -/
inductive SvgNode
  | metadata (name prelude : String)
  | backgroundRect (w h : ℚ)
  | instanceG (kind name ofString : String) (mat : SvgMatrix)
  | portG (kind name : String) (mat : SvgMatrix)
  | wireG (cmds : List PathCmd)
  | dotC (cx cy : ℚ)
  | other (content : String)
deriving DecidableEq

/-- A schematic SVG document: the root element's width/height and its
children. -/
structure SvgDoc where
  width : ℚ
  height : ℚ
  nodes : List SvgNode
deriving DecidableEq

/-- The codec-level schematic record (`schematic.toData()` /
`Schematic.fromData` payload): everything persisted except the derived dots. -/
structure SchData where
  name : String
  prelude : String
  size : Point
  instances : List InstanceData
  ports : List PortData
  wires : List WireData
  otherSvgElements : List String
deriving DecidableEq

/-- Serialize a point list to path commands: a move to the first point, lines
to the rest. -/
def pathCmds : List Point → List PathCmd
  | [] => []
  | p :: ps => .move p :: ps.map .line

/-- Serialize an instance: its orientation through the matrix table, its
location as the translation. -/
def instNode (i : InstanceData) : SvgNode :=
  let m := orientToMat i.orientation
  .instanceG i.kind i.name i.ofString ⟨m.a, m.b, m.c, m.d, i.loc.x, i.loc.y⟩

/-- Serialize a port, symmetric to an instance. -/
def portNode (p : PortData) : SvgNode :=
  let m := orientToMat p.orientation
  .portG p.kind p.name ⟨m.a, m.b, m.c, m.d, p.loc.x, p.loc.y⟩

/-- Serialize a wire as its path. -/
def wireNode (w : WireData) : SvgNode :=
  .wireG (pathCmds w.points)

/-- Modelled from the spec: `SvgExporter.export` (absent from the source
tree) writes the metadata element, the background rect, every instance, port
and wire in insertion order, the dots recomputed fresh from the wires, and the
opaque other-SVG fragments. -/
def SvgExporter.exportSch (s : SchData) : SvgDoc :=
  { width := s.size.x
    height := s.size.y
    nodes :=
      [.metadata s.name s.prelude, .backgroundRect s.size.x s.size.y]
        ++ s.instances.map instNode
        ++ s.ports.map portNode
        ++ s.wires.map wireNode
        ++ (inferDots s.wires).map (fun p => .dotC p.x p.y)
        ++ s.otherSvgElements.map .other }

/-- Parse the line commands following a path's opening move. -/
def parseLines : List PathCmd → Except String (List Point)
  | [] => .ok []
  | .line p :: rest => (parseLines rest).map (p :: ·)
  | .move _ :: _ => .error "unexpected move command inside wire path"

/-- Parse a wire path's command list into its point sequence. -/
def parsePath : List PathCmd → Except String (List Point)
  | .move p :: rest => (parseLines rest).map (p :: ·)
  | _ => .error "wire path must begin with a move command"

/-- Whether consecutive points each differ in exactly one coordinate. -/
def manhattanB (ps : List Point) : Bool :=
  (ps.zip ps.tail).all (fun s => xor (s.1.x == s.2.x) (s.1.y == s.2.y))

/-- Import one SVG node into the accumulating schematic record; malformed
matrices and structurally invalid wires fail the whole import. -/
def importNode (acc : SchData) : SvgNode → Except String SchData
  | .metadata n p => .ok { acc with name := n, prelude := p }
  | .backgroundRect _ _ => .ok acc
  | .instanceG kind name ofString mat =>
    match matToOrient ⟨mat.a, mat.b, mat.c, mat.d⟩ with
    | none => .error "unrecognized orientation matrix on instance"
    | some o =>
      .ok { acc with instances :=
              acc.instances ++ [⟨name, ofString, kind, ⟨mat.e, mat.f⟩, o⟩] }
  | .portG kind name mat =>
    match matToOrient ⟨mat.a, mat.b, mat.c, mat.d⟩ with
    | none => .error "unrecognized orientation matrix on port"
    | some o =>
      .ok { acc with ports := acc.ports ++ [⟨name, kind, ⟨mat.e, mat.f⟩, o⟩] }
  | .wireG cmds => do
    let ps ← parsePath cmds
    if manhattanB ps then .ok { acc with wires := acc.wires ++ [⟨ps⟩] }
    else .error "non-Manhattan wire segment"
  | .dotC _ _ => .ok acc
  | .other s => .ok { acc with otherSvgElements := acc.otherSvgElements ++ [s] }

/-- Fold the importer over a node list, stopping at the first error. -/
def importNodes (acc : SchData) : List SvgNode → Except String SchData
  | [] => .ok acc
  | n :: ns =>
    match importNode acc n with
    | .error e => .error e
    | .ok acc' => importNodes acc' ns

/-- Modelled from the spec: `SvgImporter.import` (absent from the source
tree) parses a complete document into a schematic record or fails with a
descriptive error; dots are never trusted from prior state and are dropped
for recomputation. -/
def SvgImporter.importSch (doc : SvgDoc) : Except String SchData :=
  importNodes
    { name := ""
      prelude := ""
      size := ⟨doc.width, doc.height⟩
      instances := []
      ports := []
      wires := []
      otherSvgElements := [] }
    doc.nodes

/-- Build the editor's schematic from an imported record, per
`Schematic.fromData`: entities get fresh identities and the dots are
recomputed from the wires. -/
def Schematic.fromData (d : SchData) : Schematic :=
  { name := d.name
    prelude := d.prelude
    size := d.size
    instances := d.instances.enum
    ports := d.ports.enum
    wires := d.wires.enum
    dots := inferDots d.wires
    otherSvgElements := d.otherSvgElements }

/-- Handle a `LoadFile` message, per `SchEditor.handleMessage`: try the import
and replace the schematic wholesale on success; on any thrown error hand a
diagnostic to the failure handler and leave the schematic alone. -/
def SchEditor.handleLoadFile (ed : EditorState) (body : SvgDoc) : EditorState :=
  match SvgImporter.importSch body with
  | .ok d => { ed with schematic := Schematic.fromData d }
  | .error e =>
    { ed with failures := ed.failures ++ ["Error loading schematic: " ++ e] }

/-! ## Custom symbol elements (`SchematicsCore/customElement.ts`) -/

/-- An element-kind descriptor, with the fields `createCustomElement` builds.
The source's `defaultNamePrefix` field is here named `defaultNamePref`. -/
structure Element where
  kind : String
  svgTag : String
  symbolSvgLines : List String
  symbolPorts : List (String × Point)
  nameloc : Point
  ofloc : Point
  defaultNamePref : String
  defaultOf : String
  keyboardShortcut : String
  customSymbolPath : String
deriving DecidableEq

/-- The payload describing a custom symbol, per `CustomSymbolInfo`. -/
structure CustomSymbolInfo where
  name : String
  path : String
  ports : List String
  svgContent : Option String
deriving DecidableEq

/-- A symbol bounding box, per the `bounds` records in `customElement.ts`. -/
structure Bounds where
  minX : ℚ
  minY : ℚ
  maxX : ℚ
  maxY : ℚ
deriving DecidableEq

/-- What `parseSymbolSvg` extracts from a `.sym.svg` file's content. -/
structure ParsedSymbol where
  svgLines : List String
  portLocations : List (String × Point)
  bounds : Bounds
deriving DecidableEq

/-- The entries of a list at even positions. -/
def evenIdxEntries {α : Type} (l : List α) : List α :=
  (l.enum.filter (fun x => x.1 % 2 == 0)).map Prod.snd

/-- The entries of a list at odd positions. -/
def oddIdxEntries {α : Type} (l : List α) : List α :=
  (l.enum.filter (fun x => x.1 % 2 == 1)).map Prod.snd

/-- Default port locations when the SVG carries no port positions, per
`createDefaultPortLocations`: ports alternate between the left and right edges
of the bounds, evenly spaced. -/
def createDefaultPortLocations (ports : List String) (bounds : Bounds) :
    List (String × Point) :=
  let height := bounds.maxY - bounds.minY
  let leftPorts := evenIdxEntries ports
  let rightPorts := oddIdxEntries ports
  let leftSpacing := height / (leftPorts.length + 1)
  let rightSpacing := height / (rightPorts.length + 1)
  (leftPorts.enum.map (fun x =>
    (x.2, Point.mk (bounds.minX - 10) (bounds.minY + leftSpacing * (x.1 + 1)))))
  ++ (rightPorts.enum.map (fun x =>
    (x.2, Point.mk (bounds.maxX + 10) (bounds.minY + rightSpacing * (x.1 + 1)))))

/-- The generic box-symbol fallback, per `createGenericBoxSymbol`: a rect
sized to the port count, with stub paths to alternating left/right ports. -/
def createGenericBoxSymbol (ports : List String) : ParsedSymbol :=
  let boxHeight : ℚ := max 100 (ports.length * 20 + 20)
  let boxWidth : ℚ := 80
  let leftPorts := evenIdxEntries ports
  let rightPorts := oddIdxEntries ports
  let leftSpacing := boxHeight / (leftPorts.length + 1)
  let rightSpacing := boxHeight / (rightPorts.length + 1)
  { svgLines :=
      ["<rect x=0 y=0 width=" ++ toString boxWidth ++ " height="
        ++ toString boxHeight ++ " class=hdl21-symbols />"]
      ++ leftPorts.enum.map (fun x =>
          "<path d=M 0 " ++ toString (leftSpacing * (x.1 + 1))
            ++ " L -10 " ++ toString (leftSpacing * (x.1 + 1)) ++ " />")
      ++ rightPorts.enum.map (fun x =>
          "<path d=M " ++ toString boxWidth ++ " "
            ++ toString (rightSpacing * (x.1 + 1)) ++ " L "
            ++ toString (boxWidth + 10) ++ " "
            ++ toString (rightSpacing * (x.1 + 1)) ++ " />")
    portLocations :=
      (leftPorts.enum.map (fun x =>
        (x.2, Point.mk (-10) (leftSpacing * (x.1 + 1)))))
      ++ (rightPorts.enum.map (fun x =>
        (x.2, Point.mk (boxWidth + 10) (rightSpacing * (x.1 + 1)))))
    bounds := ⟨-10, 0, boxWidth + 10, boxHeight⟩ }

/-- Look a path up in the custom-element registry. -/
def regLookup (reg : List (String × Element)) (k : String) : Option Element :=
  (reg.find? (fun kv => kv.1 == k)).map Prod.snd

/-- Set a registry entry, overwriting the entry for the key if present. -/
def regSet (reg : List (String × Element)) (k : String) (v : Element) :
    List (String × Element) :=
  if (reg.find? (fun kv => kv.1 == k)).isSome then
    reg.map (fun kv => if kv.1 == k then (k, v) else kv)
  else reg ++ [(k, v)]

/-- Assemble the `Element` record `createCustomElement` builds: the Nmos base
kind, a `custom-` tag, label anchors hung off the bounds, and the symbol path
remembered for cache keying. -/
def mkCustomElement (info : CustomSymbolInfo) (svgLines : List String)
    (portLocations : List (String × Point)) (bounds : Bounds) : Element :=
  { kind := "Nmos"
    svgTag := "custom-" ++ info.name.toLower
    symbolSvgLines := svgLines
    symbolPorts := portLocations
    nameloc := ⟨bounds.maxX + 5, bounds.minY + 10⟩
    ofloc := ⟨bounds.maxX + 5, bounds.maxY - 10⟩
    defaultNamePref := info.name.toLower.take 1
    defaultOf := info.name ++ "()"
    keyboardShortcut := ""
    customSymbolPath := info.path }

/-- Per `createCustomElement`: consult the registry only when no SVG content
is supplied; with content, always re-parse and overwrite the registry entry.
The regex symbol parser `parseSymbolSvg` enters as a parameter — the claim at
issue is the caching discipline, which holds for every parser behavior. -/
def createCustomElement (parseSymbolSvg : String → ParsedSymbol)
    (reg : List (String × Element)) (info : CustomSymbolInfo) :
    Element × List (String × Element) :=
  match info.svgContent with
  | none =>
    match regLookup reg info.path with
    | some existing => (existing, reg)
    | none =>
      let r := createGenericBoxSymbol info.ports
      let el := mkCustomElement info r.svgLines r.portLocations r.bounds
      (el, regSet reg info.path el)
  | some content =>
    let parsed := parseSymbolSvg content
    let locs :=
      if parsed.portLocations.isEmpty && !info.ports.isEmpty then
        createDefaultPortLocations info.ports parsed.bounds
      else parsed.portLocations
    let el := mkCustomElement info parsed.svgLines locs parsed.bounds
    (el, regSet reg info.path el)

/-! ## Pending-port kind changes (`modes` `PortReady.changePortKind` /
`AddPort.changePortKind`) -/

/-- A port-kind descriptor, with the fields `changePortKind` reads. -/
structure PortElement where
  kind : String
  defaultName : String
  hideLabel : Bool
  nameloc : Point
deriving DecidableEq

/-- A name label's data: its text and location. -/
structure PortLabel where
  text : String
  loc : Point
deriving DecidableEq

/-- A pending (uncommitted) port being placed: its data record plus its
optional name label. -/
structure PendingPort where
  name : String
  kind : String
  portElement : PortElement
  nameLabel : Option PortLabel
deriving DecidableEq

/-- Change a pending port's kind, per `changePortKind`: a user-customized name
(one differing from the previous kind's default) survives; the label is
removed for hide-label kinds, updated in place when present, and created from
the current name when absent. -/
def ModeHandlers.changePortKind (port : PendingPort) (pe : PortElement) :
    PendingPort :=
  let oldDefaultName := port.portElement.defaultName
  let isUserCustomized := port.name != oldDefaultName
  let base : PendingPort :=
    { port with
      kind := pe.kind
      portElement := pe
      name := if isUserCustomized then port.name else pe.defaultName }
  if pe.hideLabel then { base with nameLabel := none }
  else
    match base.nameLabel with
    | some l =>
      let newText := if isUserCustomized then l.text else pe.defaultName
      { base with nameLabel := some ⟨newText, pe.nameloc⟩ }
    | none =>
      { base with nameLabel := some { text := base.name, loc := pe.nameloc } }

/-! ## Classification helpers and concrete sample states -/

/-- The structural change kinds: the ones whose `applyChange` arms re-infer
the dot set (entity add, remove, move, and wire move). -/
def Change.isStructural : Change → Bool
  | .add _ => true
  | .remove _ => true
  | .move _ _ _ => true
  | .moveWire _ _ _ => true
  | .editText _ _ _ _ => false
  | .batch _ => false

/-- Whether an entity is a placeable (Instance or SchPort) — the entities the
`InstanceReady`/`PortReady` commit paths add. -/
def Entity.isPlaceable : Entity → Bool
  | .inst _ _ => true
  | .port _ _ => true
  | .wire _ _ => false

/-- A sample Manhattan wire. -/
def wSample1 : WireData := ⟨[⟨0, 0⟩, ⟨0, 50⟩, ⟨50, 50⟩]⟩

/-- A second sample wire sharing the endpoint (0, 0). -/
def wSample2 : WireData := ⟨[⟨0, 0⟩, ⟨30, 0⟩]⟩

/-- A third sample wire sharing the endpoint (0, 0). -/
def wSample3 : WireData := ⟨[⟨0, 0⟩, ⟨0, -20⟩]⟩

/-- A sample instance record. -/
def sampleInstData : InstanceData :=
  ⟨"m1", "Nmos(w=1u,l=20n)", "Nmos", ⟨100, 100⟩, ⟨false, .r0⟩⟩

/-- A sample port record. -/
def samplePortData : PortData := ⟨"vdd", "Input", ⟨200, 100⟩, ⟨false, .r90⟩⟩

/-- A sample schematic holding one instance, one port, and one wire. -/
def sampleSchematic : Schematic :=
  ⟨"top", "import hdl21", ⟨1600, 800⟩, [(0, sampleInstData)],
    [(1, samplePortData)], [(2, wSample1)], [], []⟩

/-- A sample editor state over `sampleSchematic` with an empty history. -/
def sampleEditor : EditorState := ⟨sampleSchematic, ⟨[], 0⟩, [], []⟩

/-- An editor state whose schematic holds two freshly added instances and
whose history's one entry is the Batch that added them. -/
def batchEditor : EditorState :=
  ⟨{ sampleSchematic with
      instances := sampleSchematic.instances
        ++ [(3, sampleInstData), (4, sampleInstData)] },
    ⟨[.batch [.add (.inst 3 sampleInstData), .add (.inst 4 sampleInstData)]], 1⟩,
    [], []⟩

/-- A sample codec-level schematic record. -/
def sampleSchData : SchData :=
  ⟨"top", "import hdl21", ⟨1600, 800⟩, [sampleInstData], [samplePortData],
    [wSample1, wSample2, wSample3], ["<ellipse cx=5 cy=5 />"]⟩

/-- A document the importer rejects: its wire path takes a diagonal step. -/
def diagonalWireDoc : SvgDoc :=
  ⟨1600, 800, [.wireG [.move ⟨0, 0⟩, .line ⟨10, 10⟩]]⟩

/-- A sample parsed custom symbol. -/
def sampleParsed : ParsedSymbol :=
  ⟨["<rect x=0 y=0 width=40 height=40 />"], [("d", ⟨40, 10⟩)], ⟨0, 0, 40, 40⟩⟩

/-- A sample custom element registered under the path "adder.sym.svg". -/
def sampleElement : Element :=
  mkCustomElement ⟨"Adder", "adder.sym.svg", ["a", "b"], none⟩
    ["<rect x=0 y=0 width=40 height=40 />"] [("a", ⟨0, 10⟩)] ⟨0, 0, 40, 40⟩

/-! ## Helper lemmas -/

/-- Rounding a value that is already a multiple of the grid pitch recovers the
multiplier. -/
theorem round_ten_mul_div_ten (k : ℤ) : round ((10 * (k : ℚ)) / 10) = k := by
  have h : (10 * (k : ℚ)) / 10 = (k : ℚ) := by
    field_simp
  rw [h, round_intCast]

/-- The endpoint tally only depends on the wire multiset. -/
theorem endCount_perm {ws ws' : List WireData} (h : ws.Perm ws') (p : Point) :
    endCount ws p = endCount ws' p :=
  List.Perm.sum_eq (h.map _)

/-- The mid-segment tally only depends on the wire multiset. -/
theorem midCount_perm {ws ws' : List WireData} (h : ws.Perm ws') (p : Point) :
    midCount ws p = midCount ws' p :=
  h.countP_eq _

/-- The dot predicate only depends on the wire multiset. -/
theorem isDot_perm {ws ws' : List WireData} (h : ws.Perm ws') (p : Point) :
    isDot ws p = isDot ws' p := by
  unfold isDot
  rw [endCount_perm h, midCount_perm h]

/-- The inferred dot set only depends on the wire multiset. -/
theorem inferDots_perm {ws ws' : List WireData} (h : ws.Perm ws') (p : Point) :
    p ∈ inferDots ws ↔ p ∈ inferDots ws' := by
  simp only [inferDots, List.mem_filter, List.mem_dedup, List.mem_flatMap]
  rw [isDot_perm h]
  constructor
  · rintro ⟨⟨w, hw, hp⟩, hd⟩
    exact ⟨⟨w, h.mem_iff.mp hw, hp⟩, hd⟩
  · rintro ⟨⟨w, hw, hp⟩, hd⟩
    exact ⟨⟨w, h.mem_iff.mpr hw, hp⟩, hd⟩

/-- Inverting a batch's sub-change list is reversal composed with pointwise
inversion. -/
theorem Change.invertList_eq (cs : List Change) :
    Change.invertList cs = (cs.map Change.invert).reverse := by
  induction cs with
  | nil => rfl
  | cons c cs ih => simp [Change.invertList, ih]

/-! ## C7: the orientation group laws -/

/-- C7: on each of the 8 orientations, flipping twice on one axis is the
identity, rotating four times is the identity, and both operations stay inside
the 8-element group: each agrees with composing the fixed rotation or
reflection matrix onto the orientation's matrix, and its result decodes back
through the matrix table. -/
theorem orientation_group_laws (o : Orientation) (d : Direction) :
    (o.flipped d).flipped d = o ∧
    o.rotated.rotated.rotated.rotated = o ∧
    orientToMat o.rotated = rotMat.mul (orientToMat o) ∧
    orientToMat (o.flipped d) = (flipMat d).mul (orientToMat o) ∧
    matToOrient (orientToMat o.rotated) = some o.rotated ∧
    matToOrient (orientToMat (o.flipped d)) = some (o.flipped d) := by
  obtain ⟨r, rot⟩ := o
  cases r <;> cases rot <;> cases d <;> exact ⟨rfl, rfl, rfl, rfl, rfl, rfl⟩

/-! ## C8: grid snapping is idempotent -/

/-- C8: snapping a point to the 10-unit grid twice gives the same point as
snapping it once. -/
theorem nearestOnGrid_idem (p : Point) :
    nearestOnGrid (nearestOnGrid p) = nearestOnGrid p := by
  unfold nearestOnGrid
  simp only [round_ten_mul_div_ten]

/-! ## C4: undo/redo at the history boundaries are no-ops -/

/-- C4: undo with the cursor at history start, and redo with the cursor at
history end, return the editor state unchanged — no error, no change to the
log or to any schematic field. -/
theorem undo_redo_boundary_noop (ed : EditorState) :
    (ed.changeLog.cursor = 0 → SchEditor.undo ed = ed) ∧
    (ed.changeLog.entries.length ≤ ed.changeLog.cursor → SchEditor.redo ed = ed) := by
  constructor
  · intro h
    simp [SchEditor.undo, ChangeLog.undo, h]
  · intro h
    have hnone : ed.changeLog.entries[ed.changeLog.cursor]? = none :=
      List.getElem?_eq_none h
    simp [SchEditor.redo, ChangeLog.redo, hnone]

/-- C4 witness: on a concrete editor whose log has one fully-undone entry,
undo is the identity; with the cursor past the single entry, redo is the
identity. -/
theorem undo_redo_boundary_noop_witness :
    SchEditor.undo sampleEditor = sampleEditor ∧
    SchEditor.redo { sampleEditor with
      changeLog := ⟨[Change.add (Entity.wire 9 wSample2)], 1⟩ } =
      { sampleEditor with
        changeLog := ⟨[Change.add (Entity.wire 9 wSample2)], 1⟩ } :=
  ⟨(undo_redo_boundary_noop sampleEditor).1 rfl,
   (undo_redo_boundary_noop { sampleEditor with
      changeLog := ⟨[Change.add (Entity.wire 9 wSample2)], 1⟩ }).2 (by decide)⟩

/-! ## C5: logging a change records history only -/

/-- C5: `logChange` appends the change to the history at the cursor
(truncating any undone tail), advances the cursor, and notifies the platform;
the schematic — every one of its fields — is untouched. -/
theorem logChange_records_only (ed : EditorState) (c : Change) :
    (SchEditor.logChange ed c).schematic = ed.schematic ∧
    (SchEditor.logChange ed c).changeLog =
      ⟨ed.changeLog.entries.take ed.changeLog.cursor ++ [c],
        ed.changeLog.cursor + 1⟩ ∧
    (SchEditor.logChange ed c).sentMessages = ed.sentMessages ++ [.change] ∧
    (SchEditor.logChange ed c).failures = ed.failures :=
  ⟨rfl, rfl, rfl, rfl⟩

/-! ## C2: batch undo is atomic -/

/-- C2: with a Batch on top of the history, a single undo returns a Batch of
the inverted sub-changes in strictly reversed order, steps the cursor back
once, and the editor applies the returned sub-changes in the order listed; in
particular one undo of a Batch of two Adds leaves neither added entity in the
schematic. -/
theorem batch_undo_atomic (ed : EditorState) (cs : List Change)
    (h0 : ed.changeLog.cursor ≠ 0)
    (h : ed.changeLog.entries[ed.changeLog.cursor - 1]? = some (.batch cs)) :
    (ed.changeLog.undo).1 = some (.batch ((cs.map Change.invert).reverse)) ∧
    (SchEditor.undo ed).schematic =
      SchEditor.applyChangeList ed.schematic ((cs.map Change.invert).reverse) ∧
    (SchEditor.undo ed).changeLog =
      { ed.changeLog with cursor := ed.changeLog.cursor - 1 } ∧
    (∀ i1 d1 i2 d2, cs = [.add (.inst i1 d1), .add (.inst i2 d2)] →
      ∀ x ∈ (SchEditor.undo ed).schematic.instances, x.1 ≠ i1 ∧ x.1 ≠ i2) := by
  have hu : ed.changeLog.undo =
      (some (.batch (Change.invertList cs)),
        { ed.changeLog with cursor := ed.changeLog.cursor - 1 }) := by
    unfold ChangeLog.undo
    rw [if_neg h0, h]
    rfl
  have happ : (SchEditor.undo ed).schematic =
      SchEditor.applyChangeList ed.schematic (Change.invertList cs) := by
    unfold SchEditor.undo
    rw [hu]
    rfl
  refine ⟨?_, ?_, ?_, ?_⟩
  · rw [hu, ← Change.invertList_eq]
  · rw [happ, Change.invertList_eq]
  · unfold SchEditor.undo
    rw [hu]
  · intro i1 d1 i2 d2 hcs x hx
    subst hcs
    rw [happ] at hx
    simp only [Change.invertList, Change.invert, List.nil_append,
      List.cons_append, SchEditor.applyChangeList, SchEditor.applyChange,
      Schematic.removeEntity, Schematic.updateDots] at hx
    simp only [List.mem_filter, bne_iff_ne, ne_eq, decide_eq_true_eq] at hx
    exact ⟨hx.2, hx.1.2⟩

/-- C2 witness: undoing a concrete Batch of two instance Adds in one step
yields the inverted pair in reversed order and removes both instances. -/
theorem batch_undo_atomic_witness :
    ((batchEditor.changeLog.undo).1 =
      some (.batch (([Change.add (Entity.inst 3 sampleInstData),
        Change.add (Entity.inst 4 sampleInstData)].map Change.invert).reverse))) ∧
    ∀ x ∈ (SchEditor.undo batchEditor).schematic.instances, x.1 ≠ 3 ∧ x.1 ≠ 4 := by
  have h := batch_undo_atomic batchEditor
    [Change.add (Entity.inst 3 sampleInstData),
      Change.add (Entity.inst 4 sampleInstData)]
    (by decide) rfl
  exact ⟨h.1, h.2.2.2 3 sampleInstData 4 sampleInstData rfl⟩

/-! ## C6: dots are recomputed from the wires after structural edits -/

/-- C6: after every structural change applied through `applyChange` and after
the interactive commit path, the schematic's dot list equals the dot set
inferred from scratch from its current wires; the recomputation is idempotent;
and the inferred dot set is independent of the wire iteration order. -/
theorem dots_recomputed_from_wires (s : Schematic) (c : Change)
    (ed : EditorState) (e : Entity) (ws ws' : List WireData) (p : Point) :
    (c.isStructural = true →
      (SchEditor.applyChange s c).dots =
        inferDots ((SchEditor.applyChange s c).wires.map Prod.snd)) ∧
    (e.isPlaceable = true →
      (ModeHandlers.commit ed e).schematic.dots =
        inferDots ((ModeHandlers.commit ed e).schematic.wires.map Prod.snd)) ∧
    s.updateDots.updateDots = s.updateDots ∧
    (ws.Perm ws' → (p ∈ inferDots ws ↔ p ∈ inferDots ws')) := by
  refine ⟨?_, ?_, rfl, fun hp => inferDots_perm hp p⟩
  · intro hc
    cases c with
    | add e => rfl
    | remove e => rfl
    | move t src dst => rfl
    | moveWire i src dst => rfl
    | editText t l src dst => simp [Change.isStructural] at hc
    | batch cs => simp [Change.isStructural] at hc
  · intro he
    cases e with
    | inst i d => rfl
    | port i d => rfl
    | wire i d => simp [Entity.isPlaceable] at he

/-- C6 witness: a concrete wire add recomputes the dots from the wires, a
concrete instance commit does too, recomputation is idempotent on a concrete
schematic, and a two-wire set yields the same dots in either order. -/
theorem dots_recomputed_from_wires_witness :
    ((SchEditor.applyChange sampleSchematic (.add (.wire 7 wSample2))).dots =
      inferDots
        ((SchEditor.applyChange sampleSchematic
          (.add (.wire 7 wSample2))).wires.map Prod.snd)) ∧
    ((ModeHandlers.commit sampleEditor (.inst 8 sampleInstData)).schematic.dots =
      inferDots
        ((ModeHandlers.commit sampleEditor
          (.inst 8 sampleInstData)).schematic.wires.map Prod.snd)) ∧
    sampleSchematic.updateDots.updateDots = sampleSchematic.updateDots ∧
    ((⟨0, 0⟩ : Point) ∈ inferDots [wSample1, wSample2] ↔
      (⟨0, 0⟩ : Point) ∈ inferDots [wSample2, wSample1]) := by
  have h := dots_recomputed_from_wires sampleSchematic (.add (.wire 7 wSample2))
    sampleEditor (.inst 8 sampleInstData) [wSample1, wSample2]
    [wSample2, wSample1] ⟨0, 0⟩
  exact ⟨h.1 rfl, h.2.1 rfl, h.2.2.1, h.2.2.2 (by decide)⟩

/-! ## Codec round-trip lemmas -/

/-- Decoding the matrix the table assigns to an orientation recovers the
orientation: the table is the importer's exact inverse. -/
theorem matToOrient_orientToMat (o : Orientation) :
    matToOrient (orientToMat o) = some o := by
  obtain ⟨r, rot⟩ := o
  cases r <;> cases rot <;> rfl

/-- Importing a concatenation imports the prefix, then feeds the result to
the suffix. -/
theorem importNodes_append (acc : SchData) (xs ys : List SvgNode) :
    importNodes acc (xs ++ ys) =
      match importNodes acc xs with
      | .error e => .error e
      | .ok acc' => importNodes acc' ys := by
  induction xs generalizing acc with
  | nil => simp [importNodes]
  | cons n ns ih =>
    simp only [List.cons_append, importNodes]
    cases importNode acc n with
    | error e => rfl
    | ok acc' => exact ih acc'

/-- Importing exported instances appends exactly those instances. -/
theorem importNodes_instances (acc : SchData) (l : List InstanceData) :
    importNodes acc (l.map instNode) =
      .ok { acc with instances := acc.instances ++ l } := by
  induction l generalizing acc with
  | nil => simp [importNodes]
  | cons i l ih =>
    simp only [List.map_cons, importNodes, importNode, instNode]
    rw [matToOrient_orientToMat]
    simp only [ih]
    simp [List.append_assoc]

/-- Importing exported ports appends exactly those ports. -/
theorem importNodes_ports (acc : SchData) (l : List PortData) :
    importNodes acc (l.map portNode) =
      .ok { acc with ports := acc.ports ++ l } := by
  induction l generalizing acc with
  | nil => simp [importNodes]
  | cons i l ih =>
    simp only [List.map_cons, importNodes, importNode, portNode]
    rw [matToOrient_orientToMat]
    simp only [ih]
    simp [List.append_assoc]

/-- Parsing a run of serialized line commands recovers the points. -/
theorem parseLines_map (ps : List Point) :
    parseLines (ps.map .line) = .ok ps := by
  induction ps with
  | nil => rfl
  | cons p ps ih => simp [parseLines, ih, Except.map]

/-- Parsing a nonempty wire's serialized path recovers its points. -/
theorem parsePath_pathCmds (ps : List Point) (h : ps ≠ []) :
    parsePath (pathCmds ps) = .ok ps := by
  match ps with
  | p :: rest => simp [pathCmds, parsePath, parseLines_map, Except.map]

/-- Importing exported wires appends exactly those wires, given each is
nonempty and Manhattan. -/
theorem importNodes_wires (acc : SchData) (l : List WireData)
    (hw : ∀ w ∈ l, w.points ≠ [] ∧ manhattanB w.points = true) :
    importNodes acc (l.map wireNode) =
      .ok { acc with wires := acc.wires ++ l } := by
  induction l generalizing acc with
  | nil => simp [importNodes]
  | cons w l ih =>
    obtain ⟨hne, hman⟩ := hw w (List.mem_cons_self w l)
    simp only [List.map_cons, importNodes, importNode, wireNode]
    rw [parsePath_pathCmds w.points hne]
    simp only [Bind.bind, Except.bind, hman, if_true]
    rw [ih _ (fun w' hw' => hw w' (List.mem_cons_of_mem _ hw'))]
    simp [List.append_assoc]

/-- Dot circles are skipped by the importer. -/
theorem importNodes_dots (acc : SchData) (l : List Point) :
    importNodes acc (l.map (fun p => SvgNode.dotC p.x p.y)) = .ok acc := by
  induction l with
  | nil => rfl
  | cons p l ih => simp [importNodes, importNode, ih]

/-- Importing exported opaque fragments appends exactly those fragments. -/
theorem importNodes_others (acc : SchData) (l : List String) :
    importNodes acc (l.map .other) =
      .ok { acc with otherSvgElements := acc.otherSvgElements ++ l } := by
  induction l generalizing acc with
  | nil => simp [importNodes]
  | cons s l ih =>
    simp only [List.map_cons, importNodes, importNode]
    rw [ih]
    simp [List.append_assoc]

/-- Composition form of `importNodes_append` for a successful prefix. -/
theorem importNodes_append_ok {acc acc1 : SchData} {xs ys : List SvgNode}
    {r : Except String SchData} (h1 : importNodes acc xs = .ok acc1)
    (h2 : importNodes acc1 ys = r) : importNodes acc (xs ++ ys) = r := by
  rw [importNodes_append, h1]
  exact h2

/-! ## C1: the codec round-trips -/

/-- C1: importing the document produced by exporting a schematic record whose
wires are nonempty and Manhattan — the invariant the public entity-add
operations establish — succeeds and returns the record field-for-field, and
rebuilding the editor schematic from it recomputes the dots from the wires by
construction. -/
theorem import_export_roundtrip (s : SchData)
    (hw : ∀ w ∈ s.wires, w.points ≠ [] ∧ manhattanB w.points = true) :
    SvgImporter.importSch (SvgExporter.exportSch s) = .ok s ∧
    (Schematic.fromData s).dots = inferDots s.wires := by
  refine ⟨?_, rfl⟩
  unfold SvgImporter.importSch SvgExporter.exportSch
  exact importNodes_append_ok
    (importNodes_append_ok
      (importNodes_append_ok
        (importNodes_append_ok
          (importNodes_append_ok rfl (importNodes_instances _ s.instances))
          (importNodes_ports _ s.ports))
        (importNodes_wires _ s.wires hw))
      (importNodes_dots _ (inferDots s.wires)))
    (importNodes_others _ s.otherSvgElements)

/-- C1 witness: the round-trip evaluated on a concrete schematic holding an
instance, a port, three wires meeting at a junction, and an opaque
fragment. -/
theorem import_export_roundtrip_witness :
    SvgImporter.importSch (SvgExporter.exportSch sampleSchData) =
      .ok sampleSchData :=
  (import_export_roundtrip sampleSchData (by decide)).1

/-! ## C3: a failed import leaves the loaded schematic untouched -/

/-- C3: when the importer rejects the file, the load handler reports a
human-readable diagnostic through the failure handler and the previously
loaded schematic is not replaced or mutated in any field. -/
theorem failed_import_leaves_schematic (ed : EditorState) (body : SvgDoc)
    (e : String) (h : SvgImporter.importSch body = .error e) :
    (SchEditor.handleLoadFile ed body).schematic = ed.schematic ∧
    (SchEditor.handleLoadFile ed body).failures =
      ed.failures ++ ["Error loading schematic: " ++ e] := by
  unfold SchEditor.handleLoadFile
  rw [h]
  exact ⟨rfl, rfl⟩

/-- C3 witness: the load handler applied to a document with a diagonal wire
keeps the concrete editor's schematic and appends the diagnostic. -/
theorem failed_import_leaves_schematic_witness :
    (SchEditor.handleLoadFile sampleEditor diagonalWireDoc).schematic =
      sampleEditor.schematic ∧
    (SchEditor.handleLoadFile sampleEditor diagonalWireDoc).failures =
      sampleEditor.failures ++
        ["Error loading schematic: " ++ "non-Manhattan wire segment"] :=
  failed_import_leaves_schematic sampleEditor diagonalWireDoc
    "non-Manhattan wire segment" rfl

/-! ## C9: custom-element caching -/

/-- After setting a registry key, looking that key up yields the new value. -/
theorem regLookup_regSet_self (reg : List (String × Element)) (k : String)
    (v : Element) : regLookup (regSet reg k v) k = some v := by
  induction reg with
  | nil => simp [regSet, regLookup]
  | cons kv rest ih =>
    by_cases hk : (kv.1 == k) = true
    · unfold regSet regLookup
      rw [List.find?_cons_of_pos (p := fun x : String × Element => x.1 == k) _ hk]
      simp only [Option.isSome_some, if_true, List.map_cons, if_pos hk]
      rw [List.find?_cons_of_pos (p := fun x : String × Element => x.1 == k) _ (by simp)]
      rfl
    · unfold regSet
      unfold regSet at ih
      rw [List.find?_cons_of_neg (p := fun x : String × Element => x.1 == k) _ hk]
      by_cases hs : (rest.find? (fun kv => kv.1 == k)).isSome
      · rw [if_pos hs]
        rw [if_pos hs] at ih
        unfold regLookup
        unfold regLookup at ih
        simp only [List.map_cons, if_neg hk]
        rw [List.find?_cons_of_neg (p := fun x : String × Element => x.1 == k) _ hk]
        exact ih
      · rw [if_neg hs]
        rw [if_neg hs] at ih
        unfold regLookup
        unfold regLookup at ih
        rw [List.cons_append,
          List.find?_cons_of_neg (p := fun x : String × Element => x.1 == k) _ hk]
        exact ih

/-- C9: with no SVG content supplied, a registered path's cached element is
returned as-is and the registry is left unchanged; with SVG content supplied,
the element is always built afresh from the parsed content — regardless of
what the registry holds — and the registry entry for the path is overwritten
with it. -/
theorem createCustomElement_caching (parse : String → ParsedSymbol)
    (reg : List (String × Element)) (info : CustomSymbolInfo) :
    (info.svgContent = none → ∀ e, regLookup reg info.path = some e →
      createCustomElement parse reg info = (e, reg)) ∧
    (∀ content, info.svgContent = some content →
      (createCustomElement parse reg info).1 =
        mkCustomElement info (parse content).svgLines
          (if (parse content).portLocations.isEmpty && !info.ports.isEmpty then
            createDefaultPortLocations info.ports (parse content).bounds
          else (parse content).portLocations)
          (parse content).bounds ∧
      regLookup (createCustomElement parse reg info).2 info.path =
        some (createCustomElement parse reg info).1) := by
  constructor
  · intro hnone e he
    unfold createCustomElement
    rw [hnone, he]
  · intro content hsome
    unfold createCustomElement
    rw [hsome]
    exact ⟨rfl, regLookup_regSet_self reg info.path _⟩

/-- C9 witness: a cached lookup without content returns the registered
element and registry unchanged; a call with content on the same registry
rebuilds the element and overwrites the entry. -/
theorem createCustomElement_caching_witness :
    (createCustomElement (fun _ => sampleParsed)
        [("adder.sym.svg", sampleElement)]
        ⟨"Adder", "adder.sym.svg", ["a", "b"], none⟩ =
      (sampleElement, [("adder.sym.svg", sampleElement)])) ∧
    ((createCustomElement (fun _ => sampleParsed)
        [("adder.sym.svg", sampleElement)]
        ⟨"Adder", "adder.sym.svg", ["a", "b"], some "<svg></svg>"⟩).1 =
      mkCustomElement ⟨"Adder", "adder.sym.svg", ["a", "b"], some "<svg></svg>"⟩
        sampleParsed.svgLines sampleParsed.portLocations sampleParsed.bounds ∧
      regLookup (createCustomElement (fun _ => sampleParsed)
        [("adder.sym.svg", sampleElement)]
        ⟨"Adder", "adder.sym.svg", ["a", "b"], some "<svg></svg>"⟩).2
          "adder.sym.svg" =
        some (createCustomElement (fun _ => sampleParsed)
          [("adder.sym.svg", sampleElement)]
          ⟨"Adder", "adder.sym.svg", ["a", "b"], some "<svg></svg>"⟩).1) := by
  constructor
  · exact (createCustomElement_caching (fun _ => sampleParsed)
      [("adder.sym.svg", sampleElement)]
      ⟨"Adder", "adder.sym.svg", ["a", "b"], none⟩).1 rfl sampleElement rfl
  · have h := (createCustomElement_caching (fun _ => sampleParsed)
      [("adder.sym.svg", sampleElement)]
      ⟨"Adder", "adder.sym.svg", ["a", "b"], some "<svg></svg>"⟩).2
      "<svg></svg>" rfl
    exact ⟨h.1.trans rfl, h.2⟩

/-! ## C10: pending-port kind changes preserve customized names -/

/-- C10: changing a pending port's kind keeps a user-customized name (one
differing from the previous kind's default) and, whenever a label survives
the change, its text; a non-customized name is reset to the new kind's
default; and afterwards the port lacks a name label exactly when the new
kind hides it. -/
theorem changePortKind_preserves_custom_name (port : PendingPort)
    (pe : PortElement) :
    (port.name ≠ port.portElement.defaultName →
      (ModeHandlers.changePortKind port pe).name = port.name ∧
      (∀ l l', port.nameLabel = some l →
        (ModeHandlers.changePortKind port pe).nameLabel = some l' →
          l'.text = l.text)) ∧
    (port.name = port.portElement.defaultName →
      (ModeHandlers.changePortKind port pe).name = pe.defaultName) ∧
    ((ModeHandlers.changePortKind port pe).nameLabel = none ↔
      pe.hideLabel = true) := by
  unfold ModeHandlers.changePortKind
  by_cases hc : port.name = port.portElement.defaultName
  · simp only [hc, bne_self_eq_false, if_false]
    by_cases hh : pe.hideLabel
    · simp [hh]
    · cases hl : port.nameLabel <;> simp [hh, hl]
  · have hb : (port.name != port.portElement.defaultName) = true := by
      simpa using hc
    simp only [hb, if_true]
    by_cases hh : pe.hideLabel
    · simp [hh, hc]
    · cases hl : port.nameLabel with
      | none => simp [hh, hl, hc]
      | some l =>
        simp only [hl]
        rw [if_neg hh]
        refine ⟨fun _ => ⟨rfl, ?_⟩, fun h => absurd h hc, by simp [hh]⟩
        intro l0 l' hl0 hl'
        cases Option.some.inj hl0
        cases (Option.some.inj hl').symm
        rfl

/-- C10 witness: switching a customized pending port between concrete kinds
keeps its name and label text; a non-customized one resets; and switching to
a hide-label kind removes the label exactly then. -/
theorem changePortKind_witness :
    ((ModeHandlers.changePortKind
        ⟨"clk", "Input", ⟨"Input", "inp", false, ⟨10, 0⟩⟩,
          some ⟨"clk", ⟨10, 0⟩⟩⟩
        ⟨"Output", "out", false, ⟨20, 0⟩⟩).name = "clk" ∧
      (ModeHandlers.changePortKind
        ⟨"clk", "Input", ⟨"Input", "inp", false, ⟨10, 0⟩⟩,
          some ⟨"clk", ⟨10, 0⟩⟩⟩
        ⟨"Output", "out", false, ⟨20, 0⟩⟩).nameLabel =
        some ⟨"clk", ⟨20, 0⟩⟩) ∧
    (ModeHandlers.changePortKind
        ⟨"inp", "Input", ⟨"Input", "inp", false, ⟨10, 0⟩⟩,
          some ⟨"inp", ⟨10, 0⟩⟩⟩
        ⟨"Output", "out", false, ⟨20, 0⟩⟩).name = "out" ∧
    (ModeHandlers.changePortKind
        ⟨"clk", "Input", ⟨"Input", "inp", false, ⟨10, 0⟩⟩,
          some ⟨"clk", ⟨10, 0⟩⟩⟩
        ⟨"Gnd", "gnd", true, ⟨20, 0⟩⟩).nameLabel = none := by
  have h1 := changePortKind_preserves_custom_name
    ⟨"clk", "Input", ⟨"Input", "inp", false, ⟨10, 0⟩⟩, some ⟨"clk", ⟨10, 0⟩⟩⟩
    ⟨"Output", "out", false, ⟨20, 0⟩⟩
  have h2 := changePortKind_preserves_custom_name
    ⟨"inp", "Input", ⟨"Input", "inp", false, ⟨10, 0⟩⟩, some ⟨"inp", ⟨10, 0⟩⟩⟩
    ⟨"Output", "out", false, ⟨20, 0⟩⟩
  have h3 := changePortKind_preserves_custom_name
    ⟨"clk", "Input", ⟨"Input", "inp", false, ⟨10, 0⟩⟩, some ⟨"clk", ⟨10, 0⟩⟩⟩
    ⟨"Gnd", "gnd", true, ⟨20, 0⟩⟩
  refine ⟨⟨(h1.1 (by decide)).1, ?_⟩, h2.2.1 rfl, h3.2.2.mpr rfl⟩
  rfl

end Schelectron
